import Mathlib

/-!
Shallow embedding of the heuristic medical-image analyzer of this
repository: `backend/models/cnn_model.py` (planar chest-radiograph
path), `backend/models/mri_model.py` and `backend/models/ct_model.py`
(volumetric-snapshot paths).

Conventions used throughout:

* A pixel grid is a height, a width and a function `ℕ → ℕ → ℕ`
  returning the `uint8` luminance value at (row, column).
* Python/NumPy floating-point arithmetic is modelled by exact rational
  arithmetic (`ℚ`).
* `np.std` is a square root and therefore not rational; wherever the
  source uses the standard deviation (`contrast`), the embedding takes
  it as an explicit argument `c` constrained by `IsStd v c`
  (`0 ≤ c ∧ c ^ 2 = v`, `v` being the variance, which is rational).
* Python `round(x, 2)` is modelled by round-half-to-even of `100 * x`.
* `int(h * 0.33)`, `int(h * 0.66)` and `int(h * 0.5)` are modelled by
  `33 * h / 100`, `66 * h / 100` and `50 * h / 100` with natural
  division, which agrees with the float computation for the sizes
  involved here.
-/

namespace MedImg

/-- The literal `1e-6` used as a guard everywhere in the source. -/
def eps : ℚ := 1 / 1000000

/-- `np.clip x lo hi`. -/
def clipQ (x lo hi : ℚ) : ℚ := max lo (min hi x)

/-- Sum `f 0 + ... + f (n-1)`; models `np.sum`/`np.mean` numerators. -/
def sumR (n : ℕ) (f : ℕ → ℚ) : ℚ := ((List.range n).map f).sum

theorem sumR_zero (n : ℕ) : sumR n (fun _ => 0) = 0 := by
  simp [sumR]

theorem sumR_const (n : ℕ) (c : ℚ) : sumR n (fun _ => c) = n * c := by
  induction n with
  | zero => simp [sumR]
  | succ m ih =>
      unfold sumR at ih ⊢
      rw [List.range_succ, List.map_append, List.sum_append, ih]
      simp only [List.map_cons, List.map_nil, List.sum_cons, List.sum_nil, add_zero]
      push_cast
      ring

theorem sumR_congr {n : ℕ} {f g : ℕ → ℚ} (h : ∀ i, i < n → f i = g i) :
    sumR n f = sumR n g := by
  unfold sumR
  congr 1
  apply List.map_congr_left
  intro i hi
  exact h i (List.mem_range.mp hi)

/-- Row-major flattening of an `h × w` grid of values. -/
def flatG {α : Type} (h w : ℕ) (f : ℕ → ℕ → α) : List α :=
  (List.range h).flatMap fun y => (List.range w).map fun x => f y x

theorem flatG_const {α : Type} (h w : ℕ) (c : α) :
    flatG h w (fun _ _ => c) = List.replicate (h * w) c := by
  unfold flatG
  induction h with
  | zero => simp
  | succ m ih =>
      rw [List.range_succ, List.flatMap_append, ih, Nat.succ_mul, List.replicate_add]
      simp [List.map_const']

/-- Ascending sort, as `np.sort`/`np.quantile` use internally. -/
def sortQ (l : List ℚ) : List ℚ := List.insertionSort (· ≤ ·) l

theorem mem_sortQ {l : List ℚ} {v : ℚ} : v ∈ sortQ l ↔ v ∈ l :=
  (List.perm_insertionSort _ l).mem_iff

theorem length_sortQ (l : List ℚ) : (sortQ l).length = l.length :=
  List.length_insertionSort _ l

theorem getD_of_allEq {α : Type} {l : List α} {c : α} (h : ∀ v ∈ l, v = c) (n : ℕ) :
    l.getD n c = c := by
  rcases lt_or_ge n l.length with hn | hn
  · rw [List.getD_eq_getElem l c hn]
    exact h _ (List.getElem_mem hn)
  · exact List.getD_eq_default l c hn

theorem getD_of_allEq_lt {α : Type} {l : List α} {c d : α} (h : ∀ v ∈ l, v = c)
    {n : ℕ} (hn : n < l.length) : l.getD n d = c := by
  rw [List.getD_eq_getElem l d hn]
  exact h _ (List.getElem_mem hn)

/-- Position `q * (n - 1)` used by `np.quantile` for a length-`n` array. -/
def qpos (q : ℚ) (n : ℕ) : ℚ := q * ((n : ℚ) - 1)

/-- `np.quantile(l, q)` with the default linear interpolation. -/
def quantileQ (q : ℚ) (l : List ℚ) : ℚ :=
  (sortQ l).getD (⌊qpos q l.length⌋).toNat 0 +
    (qpos q l.length - (⌊qpos q l.length⌋ : ℚ)) *
      ((sortQ l).getD (min ((⌊qpos q l.length⌋).toNat + 1) (l.length - 1)) 0 -
        (sortQ l).getD (⌊qpos q l.length⌋).toNat 0)

theorem quantileQ_of_allZero {l : List ℚ} (h : ∀ v ∈ l, v = 0) (q : ℚ) :
    quantileQ q l = 0 := by
  have hz : ∀ v ∈ sortQ l, v = (0 : ℚ) := fun v hv => h v (mem_sortQ.mp hv)
  unfold quantileQ
  rw [getD_of_allEq hz, getD_of_allEq hz]
  ring

/-- Round-half-to-even to an integer, as Python `round` does. -/
def rhe (t : ℚ) : ℤ :=
  if t - (⌊t⌋ : ℚ) < 1 / 2 then ⌊t⌋
  else if 1 / 2 < t - (⌊t⌋ : ℚ) then ⌊t⌋ + 1
  else if 2 ∣ ⌊t⌋ then ⌊t⌋ else ⌊t⌋ + 1

theorem rhe_cases (t : ℚ) : rhe t = ⌊t⌋ ∨ rhe t = ⌊t⌋ + 1 := by
  unfold rhe
  split_ifs <;> simp

theorem rhe_intCast (m : ℤ) : rhe (m : ℚ) = m := by
  unfold rhe
  norm_num

/-- Python `round(x, 2)` on exact rationals. -/
def round2 (x : ℚ) : ℚ := (rhe (100 * x) : ℚ) / 100

theorem le_rhe {m : ℤ} {t : ℚ} (h : (m : ℚ) ≤ t) : m ≤ rhe t := by
  have hf : m ≤ ⌊t⌋ := Int.le_floor.mpr h
  rcases rhe_cases t with hc | hc <;> omega

theorem rhe_le {m : ℤ} {t : ℚ} (h : t ≤ (m : ℚ)) : rhe t ≤ m := by
  have hf : ⌊t⌋ ≤ m := by
    have := Int.floor_le_floor h
    simpa using this
  rcases eq_or_lt_of_le hf with heq | hlt
  · have hr : t - (⌊t⌋ : ℚ) ≤ 0 := by
      rw [heq]; linarith
    unfold rhe
    have hlt : t - (⌊t⌋ : ℚ) < 1 / 2 := by linarith
    rw [if_pos hlt]
    omega
  · rcases rhe_cases t with hc | hc <;> omega

theorem le_round2 {m : ℤ} {x : ℚ} (h : (m : ℚ) ≤ 100 * x) :
    (m : ℚ) / 100 ≤ round2 x := by
  unfold round2
  have := le_rhe h
  have : (m : ℚ) ≤ (rhe (100 * x) : ℚ) := by exact_mod_cast this
  linarith

theorem round2_le {m : ℤ} {x : ℚ} (h : 100 * x ≤ (m : ℚ)) :
    round2 x ≤ (m : ℚ) / 100 := by
  unfold round2
  have := rhe_le h
  have : (rhe (100 * x) : ℚ) ≤ (m : ℚ) := by exact_mod_cast this
  linarith

/-- `np.std l = c` : `c` is the nonnegative square root of the variance. -/
def IsStd (v c : ℚ) : Prop := 0 ≤ c ∧ c ^ 2 = v

theorem IsStd.zero {c : ℚ} (h : IsStd 0 c) : c = 0 := by
  rcases h with ⟨_, h2⟩
  exact (pow_eq_zero_iff (two_ne_zero)).mp h2

/-- A vector over the fixed class order [Normal, Pneumonia, Tumor, Fracture]. -/
structure V4 where
  n : ℚ
  p : ℚ
  t : ℚ
  f : ℚ
deriving DecidableEq, Repr

/-- `vec.sum()`. -/
def sum4 (v : V4) : ℚ := v.n + v.p + v.t + v.f

/-- `np.maximum(vec, 1e-6)`. -/
def clampEps (v : V4) : V4 := ⟨max v.n eps, max v.p eps, max v.t eps, max v.f eps⟩

/-- `vec / vec.sum()`. -/
def norm4 (v : V4) : V4 :=
  let s := sum4 v
  ⟨v.n / s, v.p / s, v.t / s, v.f / s⟩

/-- `int(np.argmax(vec))`: the first index attaining the maximum. -/
def argmax4 (v : V4) : ℕ :=
  if v.p ≤ v.n ∧ v.t ≤ v.n ∧ v.f ≤ v.n then 0
  else if v.t ≤ v.p ∧ v.f ≤ v.p then 1
  else if v.f ≤ v.t then 2 else 3

/-- `float(vec[i])`. -/
def comp4 (v : V4) (i : ℕ) : ℚ :=
  if i = 0 then v.n else if i = 1 then v.p else if i = 2 then v.t else v.f

/-- Does `s` start with `pat` (on character lists)? -/
def startsL : List Char → List Char → Bool
  | [], _ => true
  | _ :: _, [] => false
  | x :: xs, y :: ys => x = y && startsL xs ys

/-- Does `pat` occur inside `s` (Python `pat in s`)? -/
def subL (pat : List Char) : List Char → Bool
  | [] => pat.isEmpty
  | y :: ys => startsL pat (y :: ys) || subL pat ys

/-- Python substring test `pat in s`. -/
def hasSub (s pat : String) : Bool := subL pat.toList s.toList

/-- Python `str.lower()` (ASCII is all that occurs here). -/
def pyLower (s : String) : String := s.map Char.toLower

/-- Python `a or b` for an optional/empty string. -/
def pyOrStr (o : Option String) (d : String) : String :=
  match o with
  | none => d
  | some s => if s = "" then d else s

/-! ## Pixel grids and the feature extractor of `cnn_model.py` -/

/-- A grayscale image: `px y x` is the `uint8` luminance at row `y`,
column `x` (`0 ≤ y < h`, `0 ≤ x < w`). -/
structure Img where
  h : ℕ
  w : ℕ
  px : ℕ → ℕ → ℕ

/-- The uniform image (every pixel equal to `c`). -/
def constImg (h w c : ℕ) : Img := ⟨h, w, fun _ _ => c⟩

/-- Index into an array of length `n` padded with `np.pad(·, mode=edge)`:
out-of-range indices are clamped to the nearest valid one. -/
def clampI (n : ℕ) (i : ℤ) : ℕ := (max 0 (min ((n : ℤ) - 1) i)).toNat

/-- Index into an array of length `n` padded with `np.pad(·, mode=reflect)`
for pad widths at most `n - 1` (a single reflection at each border). -/
def reflIdx (n : ℕ) (i : ℤ) : ℕ :=
  (if i < 0 then -i else if (n : ℤ) ≤ i then 2 * (n : ℤ) - 2 - i else i).toNat

/-- `np.median` of nine values: the fifth element in ascending order. -/
def med9 (l : List ℕ) : ℕ := (List.insertionSort (· ≤ ·) l).getD 4 0

/-- One output pixel of `_median(gray, k=3)`: the median of the 3×3
edge-padded neighbourhood. -/
def medPx (img : Img) (y x : ℕ) : ℕ :=
  med9 (flatG 3 3 fun dy dx =>
    img.px (clampI img.h ((y : ℤ) + dy - 1)) (clampI img.w ((x : ℤ) + dx - 1)))

/-- `_median(gray, k=3)`. -/
def medianImg (img : Img) : Img := ⟨img.h, img.w, medPx img⟩

/-- Number of pixels with value `v` (one bin of `image.histogram()`). -/
def histCount (img : Img) (v : ℕ) : ℕ :=
  (flatG img.h img.w img.px).count v

/-- The list of nonzero histogram bins, in bin order (PIL `equalize`). -/
def histo (img : Img) : List ℕ :=
  ((List.range 256).map (histCount img)).filter (· ≠ 0)

/-- Partial sums of the histogram: `hist[0] + ... + hist[i-1]`. -/
def histPrefSum (img : Img) (i : ℕ) : ℕ :=
  ((List.range i).map (histCount img)).sum

/-- The lookup table PIL `ImageOps.equalize` builds: identity when at
most one bin is populated or when the integer `step` is zero, otherwise
`lut[i] = (step // 2 + sum(hist[:i])) // step` with
`step = (total - last_nonzero_bin) // 255`. -/
def lutPil (img : Img) (i : ℕ) : ℕ :=
  if (histo img).length ≤ 1 then i
  else
    if ((histo img).sum - (histo img).getLastD 0) / 255 = 0 then i
    else ((((histo img).sum - (histo img).getLastD 0) / 255) / 2 + histPrefSum img i) /
      (((histo img).sum - (histo img).getLastD 0) / 255)

/-- `_equalize`: apply the PIL equalization lookup table. -/
def equalizeImg (img : Img) : Img :=
  ⟨img.h, img.w, fun y x => lutPil img (img.px y x)⟩

/-- `gray_eq = _equalize(_median(gray, 3))`, the grid all planar
features are computed on. -/
def grayEq (img : Img) : Img := equalizeImg (medianImg img)

/-- A pixel as a rational (the float32 cast). -/
def pxQ (img : Img) (y x : ℕ) : ℚ := (img.px y x : ℚ)

/-- `np.mean` of the whole grid (`brightness`). -/
def meanImg (g : Img) : ℚ :=
  sumR g.h (fun y => sumR g.w fun x => pxQ g y x) / ((g.h * g.w : ℕ) : ℚ)

/-- The variance of the grid; `np.std` (`contrast`) is its square root. -/
def varImg (g : Img) : ℚ :=
  sumR g.h (fun y => sumR g.w fun x => (pxQ g y x - meanImg g) ^ 2) /
    ((g.h * g.w : ℕ) : ℚ)

/-- The discrete Laplacian of `_variance_of_laplacian`: `-4·g` plus the
four edge-clamped neighbours. -/
def lapPx (g : Img) (y x : ℕ) : ℚ :=
  -4 * pxQ g y x +
    pxQ g y (clampI g.w ((x : ℤ) - 1)) + pxQ g y (clampI g.w ((x : ℤ) + 1)) +
    pxQ g (clampI g.h ((y : ℤ) - 1)) x + pxQ g (clampI g.h ((y : ℤ) + 1)) x

/-- Mean of the Laplacian map. -/
def lapMean (g : Img) : ℚ :=
  sumR g.h (fun y => sumR g.w fun x => lapPx g y x) / ((g.h * g.w : ℕ) : ℚ)

/-- `sharpness = lap.var()`. -/
def sharpnessOf (g : Img) : ℚ :=
  sumR g.h (fun y => sumR g.w fun x => (lapPx g y x - lapMean g) ^ 2) /
    ((g.h * g.w : ℕ) : ℚ)

/-- `edge_score = (mean |diff_x| + mean |diff_y|) / 2`. -/
def edgeScoreOf (g : Img) : ℚ :=
  (sumR g.h (fun y => sumR (g.w - 1) fun x => |pxQ g y (x + 1) - pxQ g y x|) /
      ((g.h * (g.w - 1) : ℕ) : ℚ) +
    sumR (g.h - 1) (fun y => sumR g.w fun x => |pxQ g (y + 1) x - pxQ g y x|) /
      (((g.h - 1) * g.w : ℕ) : ℚ)) / 2

/-- Mean of the 15×15 reflect-padded box around `(y, x)`
(`_convolve(g, ones(15,15)) / 225` of `_local_variance`). -/
def boxMean (g : Img) (y x : ℕ) : ℚ :=
  sumR 15 (fun dy => sumR 15 fun dx =>
    pxQ g (reflIdx g.h ((y : ℤ) + dy - 7)) (reflIdx g.w ((x : ℤ) + dx - 7))) / 225

/-- Mean of the squared pixels over the same box. -/
def boxMean2 (g : Img) (y x : ℕ) : ℚ :=
  sumR 15 (fun dy => sumR 15 fun dx =>
    (pxQ g (reflIdx g.h ((y : ℤ) + dy - 7)) (reflIdx g.w ((x : ℤ) + dx - 7))) ^ 2) / 225

/-- `_local_variance(gray_eq, window=15)` at one pixel:
`max(0, mean2 - mean²)`. -/
def localVarCNN (g : Img) (y x : ℕ) : ℚ :=
  max 0 (boxMean2 g y x - (boxMean g y x) ^ 2)

/-- The local-variance map flattened row-major. -/
def lvListCNN (g : Img) : List ℚ := flatG g.h g.w (localVarCNN g)

/-- `var_q95 = np.quantile(local_var, 0.95)`. -/
def varQ95 (g : Img) : ℚ := quantileQ (95 / 100) (lvListCNN g)

/-- `var_mean = np.mean(local_var)`. -/
def varMeanCNN (g : Img) : ℚ := (lvListCNN g).sum / ((g.h * g.w : ℕ) : ℚ)

/-- `opacity_score = max(0, (var_q95 - var_mean) / (var_q95 + 1e-6))`. -/
def opacityOf (g : Img) : ℚ :=
  max 0 ((varQ95 g - varMeanCNN g) / (varQ95 g + eps))

/-! ### Modality-gate band statistics (`cnn_model.py` lines 72–99) -/

/-- `aspect = w / h`. -/
def aspectOf (img : Img) : ℚ := (img.w : ℚ) / (img.h : ℚ)

/-- `edge_map = grad_x[:-1, :] + grad_y[:, :-1]`, an (h−1)×(w−1) map. -/
def emPx (g : Img) (y x : ℕ) : ℚ :=
  |pxQ g y (x + 1) - pxQ g y x| + |pxQ g (y + 1) x - pxQ g y x|

/-- Mean of the edge map over rows `y0 ≤ y < y1` (full width `w - 1`). -/
def bandMeanEM (g : Img) (y0 y1 : ℕ) : ℚ :=
  sumR (y1 - y0) (fun dy => sumR (g.w - 1) fun x => emPx g (y0 + dy) x) /
    (((y1 - y0) * (g.w - 1) : ℕ) : ℚ)

/-- Mean of the pixel grid over rows `y0 ≤ y < y1` (full width). -/
def bandMeanPx (g : Img) (y0 y1 : ℕ) : ℚ :=
  sumR (y1 - y0) (fun dy => sumR g.w fun x => pxQ g (y0 + dy) x) /
    (((y1 - y0) * g.w : ℕ) : ℚ)

/-- `edge_bot_top_ratio`: bottom third over top third of the edge map
(thirds split at `int(Hm*0.33)` and `int(Hm*0.66)`, `Hm = h - 1`). -/
def edgeBandR (g : Img) : ℚ :=
  (bandMeanEM g (66 * (g.h - 1) / 100) (g.h - 1) + eps) /
    (bandMeanEM g 0 (33 * (g.h - 1) / 100) + eps)

/-- `bright_bot_top_ratio`: bottom third over top third of the grid. -/
def brightBandR (g : Img) : ℚ :=
  (bandMeanPx g (66 * g.h / 100) g.h + eps) /
    (bandMeanPx g 0 (33 * g.h / 100) + eps)

/-- The heuristic dental/non-chest gate (`dental_like`):
`aspect > 1.6 and (edge_bot_top_ratio > 1.35 or bright_bot_top_ratio > 1.12)`,
with both ratios taken bottom-third over top-third of `gray_eq`. -/
def dentalGate (img : Img) : Bool :=
  decide (aspectOf img > 8 / 5) &&
    (decide (edgeBandR (grayEq img) > 27 / 20) ||
      decide (brightBandR (grayEq img) > 28 / 25))

/-- Modelled from the wording of claim C4: the same gate but with the
bottom/top edge-band ratio — and the brightness ratio — computed over a
two-band split, i.e. the grid cut into halves at `int(H * 0.5)`. -/
def dentalGateClaim (img : Img) : Bool :=
  decide (aspectOf img > 8 / 5) &&
    (decide ((bandMeanEM (grayEq img) (50 * (img.h - 1) / 100) (img.h - 1) + eps) /
        (bandMeanEM (grayEq img) 0 (50 * (img.h - 1) / 100) + eps) > 27 / 20) ||
      decide ((bandMeanPx (grayEq img) (50 * img.h / 100) img.h + eps) /
        (bandMeanPx (grayEq img) 0 (50 * img.h / 100) + eps) > 28 / 25))

/-! ## The optional external vision hint (`gemini_vision` result) -/

/-- The fields of a vision-assistant hint the analyzers read.
`modality = gv.get(<modality>)` may be absent; `conf` is
`float(gv.get(<confidence>, 0.8))`; `region = gv.get(<body_region>)`;
`finds = gv.get(<preliminary_findings>, []) or []` (strings only);
`isDental = gv.get(<is_dental>, False)`. -/
structure GemHint where
  modality : Option String
  conf : ℚ
  region : Option String
  finds : List String
  isDental : Bool

/-- Python truthiness of an optional string. -/
def optTruthy (o : Option String) : Bool :=
  match o with
  | none => false
  | some s => !(s == "")

/-- `gem_body_region = gv.get(<body_region>) or <unknown>` (absent hint
leaves it `None`). -/
def gemRegion (gem : Option GemHint) : Option String :=
  match gem with
  | none => none
  | some gv => some (pyOrStr gv.region ("unknown"))

/-- The preliminary findings carried by the hint (empty when absent). -/
def gemFinds (gem : Option GemHint) : List String :=
  match gem with
  | none => []
  | some gv => gv.finds

/-! ## The planar classifier pipeline (`CNNModel.analyze_image`) -/

/-- Refinement of `dental_like` by the hint (`cnn_model.py` line 115):
`if gv.get(<is_dental>, False) or (gem_modality in [<non-chest-xray>,
<document>] and gem_conf and gem_conf > 0.75): dental_like = True`. -/
def dentalRefined (dental0 : Bool) (gem : Option GemHint) : Bool :=
  match gem with
  | none => dental0
  | some gv =>
      dental0 ||
        (gv.isDental ||
          (decide (gv.modality = some ("non-chest-xray") ∨
              gv.modality = some ("document")) &&
            decide (gv.conf ≠ 0) && decide (gv.conf > 3 / 4)))

/-- The raw per-class heuristic scores (`cnn_model.py` lines 122–136). -/
def heurScores (brightness contrast sharpness edge opacity : ℚ) : V4 :=
  let nb := clipQ ((brightness - 90) / 60) (-1) 1
  let nc := clipQ ((contrast - 40) / 40) (-1) 1
  let ns := clipQ ((sharpness - 25) / 50) (-1) 1
  let ne := clipQ ((edge - 25) / 40) (-1) 1
  let no := clipQ (opacity * 3) 0 1
  { n := 1 / 2 * (1 - no) + 1 / 5 * (1 - max 0 ne) + 1 / 5 * (1 - max 0 ns) +
      1 / 10 * (1 - |nb|)
    p := 1 / 2 * no + 1 / 5 * (1 - |nb|) + 1 / 5 * max 0 nc +
      1 / 10 * (1 - max 0 ns)
    t := 2 / 5 * no + 2 / 5 * max 0 ne + 1 / 5 * max 0 ns
    f := 3 / 5 * max 0 ns + 3 / 10 * max 0 ne + 1 / 10 * max 0 nc }

/-- The classifier-side running state: probability vector, predicted
index and its confidence. -/
structure ClsSt where
  vec : V4
  idx : ℕ
  conf : ℚ
deriving DecidableEq

/-- Lines 139–143: clip the scores to `≥ 1e-6`, normalize, take the
arg-max and its probability. -/
def clsInit (brightness contrast sharpness edge opacity : ℚ) : ClsSt :=
  let v := norm4 (clampEps (heurScores brightness contrast sharpness edge opacity))
  ⟨v, argmax4 v, comp4 v (argmax4 v)⟩

/-- Lines 145–165: blend a pretrained probability map (raw values of
`pmap.get(...)`, clipped and normalized) as `0.7·pre + 0.3·vec`,
renormalized, with arg-max and confidence re-derived. -/
def clsPre (pre : Option V4) (st : ClsSt) : ClsSt :=
  match pre with
  | none => st
  | some raw =>
      let vp := norm4 (clampEps raw)
      let vb := norm4 ⟨7 / 10 * vp.n + 3 / 10 * st.vec.n, 7 / 10 * vp.p + 3 / 10 * st.vec.p,
        7 / 10 * vp.t + 3 / 10 * st.vec.t, 7 / 10 * vp.f + 3 / 10 * st.vec.f⟩
      ⟨vb, argmax4 vb, comp4 vb (argmax4 vb)⟩

/-- State after the modality variables join the pipeline. -/
structure MidSt where
  modality : String
  mconf : ℚ
  idx : ℕ
  conf : ℚ
  vec : V4
deriving DecidableEq

/-- Lines 167–176: the dental/non-chest override. -/
def dentalStage (dental : Bool) (aspect edgeR : ℚ) (st : ClsSt) : MidSt :=
  if dental then
    { modality := "non-chest-xray (dental/panoramic likely)"
      mconf := min (97 / 100) (7 / 10 + 1 / 10 * (aspect - 8 / 5) + 1 / 5 * (edgeR - 27 / 20))
      idx := 0
      conf := max st.conf (7 / 10)
      vec := ⟨22 / 25, 1 / 25, 1 / 25, 1 / 25⟩ }
  else
    { modality := "chest-xray", mconf := 17 / 20, idx := st.idx, conf := st.conf,
      vec := st.vec }

/-- Lines 178–190: blend the modality of the hint when it is truthy. -/
def gemStage (gem : Option GemHint) (st : MidSt) : MidSt :=
  match gem with
  | none => st
  | some gv =>
      if optTruthy gv.modality && decide (gv.conf ≠ 0) then
        if gv.modality = some ("chest-xray") then
          { st with
            modality := "chest-xray"
            mconf := max st.mconf (min (49 / 50) (4 / 5 + 3 / 20 * gv.conf)) }
        else if gv.modality = some ("non-chest-xray") ∨ gv.modality = some ("document") ∨
            gv.modality = some ("other") then
          { modality := "non-chest-xray (gemini)"
            mconf := max st.mconf (min (49 / 50) (3 / 4 + 1 / 5 * gv.conf))
            idx := 0
            conf := max st.conf (7 / 10)
            vec := ⟨9 / 10, 1 / 25, 3 / 100, 3 / 100⟩ }
        else st
      else st

/-- Lines 192–202: the bias-correction step. -/
def biasStage (opacity : ℚ) (st : MidSt) : MidSt :=
  if st.modality = "chest-xray" ∧ opacity < 11 / 50 then
    let vb := norm4 ⟨max (7 / 10) (st.vec.n + 1 / 4), max (1 / 50) (st.vec.p - 1 / 5),
      st.vec.t * (19 / 20), st.vec.f * (19 / 20)⟩
    { st with
      vec := vb
      idx := argmax4 vb
      conf := comp4 vb (argmax4 vb) }
  else st

/-- `self.class_names[i]`. -/
def className (i : ℕ) : String :=
  if i = 0 then "Normal" else if i = 1 then "Pneumonia"
  else if i = 2 then "Tumor" else "Fracture"

/-- `_make_findings` (`cnn_model.py` lines 382–413). `contrast` is
accepted and ignored, as in the source. -/
def makeFindings (brightness contrast sharpness edge opacity : ℚ)
    (modality : String) (bodyRegion : Option String) : List String :=
  let _ := contrast
  let f1 := if brightness < 70 then ["Underexposed image (dark)"] else []
  let f2 := if brightness > 180 then ["Overexposed image (bright)"] else []
  let f3 := if sharpness < 15 then ["Low sharpness (motion blur / out of focus)"] else []
  let isChest := modality.startsWith ("chest")
  let region := pyLower (bodyRegion.getD (if isChest then "chest" else "region"))
  let f4 :=
    if opacity > 3 / 10 then
      if isChest then ["Diffuse opacities detected (possible pneumonia)"]
      else ["Increased soft-tissue density in " ++ region]
    else []
  let base := f1 ++ f2 ++ f3 ++ f4
  let f5 :=
    if (hasSub region ("neck") || hasSub region ("cervical")) ∧
        opacity > 8 / 25 ∧ edge < 12 then
      if ("Increased soft-tissue density in neck") ∈ base then []
      else ["Increased soft-tissue density in neck"]
    else []
  let f6 :=
    if edge > 55 ∧ sharpness > 40 then ["Strong linear edges (possible fracture)"] else []
  let all := base ++ f5 ++ f6
  if all = [] then ["No strong abnormalities detected"] else all

/-- One step of the merge loops of lines 214–221: append `s` unless it
is already present. -/
def addUniq (acc : List String) (s : String) : List String :=
  if s ∈ acc then acc else acc ++ [s]

/-- The findings merge of lines 213–221: hint findings first, then the
heuristic ones, all de-duplicated. -/
def mergeF (gf hf : List String) : List String := (gf ++ hf).foldl addUniq []

/-- The region-aware class label for non-chest results (lines 223–236). -/
def nonChestLabel (gbr : Option String) (vec : V4) (edge sharpness opacity : ℚ) : String :=
  let region := ((pyLower (pyOrStr gbr ("non-chest")).trim).replace ("_") ("-"))
  let possFrac := vec.f > 1 / 4 ∨ (edge > 55 ∧ sharpness > 40)
  let soft := (hasSub region ("neck") || hasSub region ("cervical")) ∧
    opacity > 8 / 25 ∧ edge < 12
  region ++ (" x-ray - ") ++
    (if soft then "possible soft-tissue swelling"
     else if possFrac then "possible fracture" else "no obvious abnormality")

/-- The result record of a successful `CNNModel.analyze_image` run.
`confidence` and `modalityConf` carry the `round(·, 2)` applied when the
dict is built; `image_stats` entries not used by any claim (and the
unused `noise` estimate) are omitted. -/
structure CNNRes where
  prediction : ℕ
  confidence : ℚ
  classLabel : String
  probs : V4
  modality : String
  modalityConf : ℚ
  finds : List String
deriving DecidableEq

/-- `CNNModel.analyze_image` from the extracted scalar features
(lines 101–258).  `b c s e o` are brightness, contrast, sharpness,
edge score and opacity score; `aspect`, `edgeR`, `brightR` the gate
statistics; `dental0` the heuristic `dental_like` of lines 94–99. -/
def cnnFromStats (b c s e o aspect edgeR brightR : ℚ) (dental0 : Bool)
    (pre : Option V4) (gem : Option GemHint) : CNNRes :=
  let _ := brightR
  let dental := dentalRefined dental0 gem
  let st := biasStage o (gemStage gem (dentalStage dental aspect edgeR
    (clsPre pre (clsInit b c s e o))))
  let confC := max (11 / 20) (min (93 / 100) st.conf)
  let gbr := gemRegion gem
  let finds := mergeF (gemFinds gem) (makeFindings b c s e o st.modality gbr)
  let label :=
    if st.modality.startsWith ("chest") then className st.idx
    else nonChestLabel gbr st.vec e s o
  { prediction := st.idx, confidence := round2 confC, classLabel := label,
    probs := st.vec, modality := st.modality, modalityConf := round2 st.mconf,
    finds := finds }

/-- `CNNModel.analyze_image` on a grayscale grid: feature extraction on
`gray_eq` followed by the classification pipeline.  `c` is the
standard deviation of `gray_eq` (see `IsStd`). -/
def cnnAnalyze (img : Img) (c : ℚ) (pre : Option V4) (gem : Option GemHint) : CNNRes :=
  cnnFromStats (meanImg (grayEq img)) c (sharpnessOf (grayEq img))
    (edgeScoreOf (grayEq img)) (opacityOf (grayEq img)) (aspectOf img)
    (edgeBandR (grayEq img)) (brightBandR (grayEq img)) (dentalGate img) pre gem

/-- What the planar entry point hands back to the caller: either the
analysis result or the `except` fallback of lines 260–267. -/
inductive CNNTop where
  | ok (r : CNNRes)
  | fb (prediction : ℕ) (confidence : ℚ) (classLabel : String) (error : String)
deriving DecidableEq

/-- The outer try/except of `CNNModel.analyze_image`: an internal error
`e` yields `{"prediction": 0, "confidence": 0.72, "class_name":
"Normal", "error": str(e)}` and is never re-raised. -/
def cnnEntry (body : Except String CNNRes) : CNNTop :=
  match body with
  | .ok r => .ok r
  | .error e => .fb 0 (18 / 25) ("Normal") e

/-- The reported confidence of a top-level planar result. -/
def CNNTop.confOf : CNNTop → ℚ
  | .ok r => r.confidence
  | .fb _ c _ _ => c

/-- The reported predicted index of a top-level planar result. -/
def CNNTop.predOf : CNNTop → ℕ
  | .ok r => r.prediction
  | .fb i _ _ _ => i

/-- The recorded error of a top-level planar result, if any. -/
def CNNTop.errOf : CNNTop → Option String
  | .ok _ => none
  | .fb _ _ _ e => some e

/-! ## The volumetric-snapshot analyzers (`mri_model.py`, `ct_model.py`)

Both `_local_var` implementations pad the grid by 7 with `np.pad(·,
mode=reflect)`, take a full 15×15 box sum (`_conv`, \"valid\" mode, an
(H+14−14)×(W+14−14) output) and then crop `[7:-7, 7:-7]`.  The cropped
output has shape `(H-14) × (W-14)`: entry `(y, x)` is the box over
padded rows `y+7 … y+21`, i.e. reflected indices `y … y+14`, which for
`y ≤ H-15` all lie inside the grid.  The embedding below keeps the
reflected indexing of the padded array. -/

/-- One entry of the box-mean over the cropped window at `(y, x)`. -/
def boxMeanMRI (g : Img) (y x : ℕ) : ℚ :=
  sumR 15 (fun dy => sumR 15 fun dx =>
    pxQ g (reflIdx g.h ((y : ℤ) + dy)) (reflIdx g.w ((x : ℤ) + dx))) / 225

/-- The matching box-mean of squared pixels. -/
def boxMean2MRI (g : Img) (y x : ℕ) : ℚ :=
  sumR 15 (fun dy => sumR 15 fun dx =>
    (pxQ g (reflIdx g.h ((y : ℤ) + dy)) (reflIdx g.w ((x : ℤ) + dx))) ^ 2) / 225

/-- `_local_var(gray, k=15)` at `(y, x)`: `max(0, mean2 - mean²)`. -/
def localVarMRI (g : Img) (y x : ℕ) : ℚ :=
  max 0 (boxMean2MRI g y x - (boxMeanMRI g y x) ^ 2)

/-- The cropped local-variance map, flattened row-major. -/
def lvListMRI (g : Img) : List ℚ :=
  flatG (g.h - 14) (g.w - 14) (localVarMRI g)

/-- `lesion_score = max(0, (lv_q95 - lv_mean) / (lv_q95 + 1e-6))`. -/
def lesionScoreM (g : Img) : ℚ :=
  max 0 ((quantileQ (95 / 100) (lvListMRI g) -
      (lvListMRI g).sum / (((g.h - 14) * (g.w - 14) : ℕ) : ℚ)) /
    (quantileQ (95 / 100) (lvListMRI g) + eps))

/-- The raw grid flattened, for `np.quantile(gray, 0.97)`. -/
def grayFlat (g : Img) : List ℚ := flatG g.h g.w (pxQ g)

/-- `hi_thresh = np.quantile(gray, 0.97)`. -/
def hiThreshM (g : Img) : ℚ := quantileQ (97 / 100) (grayFlat g)

/-- Number of pixels `≥ hi_thresh` (`hi_mask` cardinality). -/
def hiCountM (g : Img) : ℕ :=
  (grayFlat g).countP fun v => decide (hiThreshM g ≤ v)

/-- `hi_area = hi_mask.mean()`. -/
def hiAreaM (g : Img) : ℚ := (hiCountM g : ℚ) / ((g.h * g.w : ℕ) : ℚ)

/-- `lateral_diff = |left_mean - right_mean| / (gray.mean() + 1e-6)`,
the halves split at `mid = w // 2`. -/
def lateralM (g : Img) : ℚ :=
  |sumR g.h (fun y => sumR (g.w / 2) fun x => pxQ g y x) /
      ((g.h * (g.w / 2) : ℕ) : ℚ) -
    sumR g.h (fun y => sumR (g.w - g.w / 2) fun x => pxQ g y (g.w / 2 + x)) /
      ((g.h * (g.w - g.w / 2) : ℕ) : ℚ)| / (meanImg g + eps)

/-- The MRI suspicion rule (`mri_model.py` lines 140–144). -/
def mriSusp (g : Img) : Bool :=
  decide (lesionScoreM g > 7 / 20) ||
    (decide (lesionScoreM g > 1 / 4) && decide (edgeScoreOf g > 10)) ||
    (decide (hiAreaM g > 3 / 200) && decide (lateralM g > 2 / 25))

/-- The MRI confidence before rounding:
`min(0.95, 0.60 + 0.28·lesion_score + 0.10·min(lateral_diff, 0.2))`. -/
def mriConfRaw (g : Img) : ℚ :=
  min (19 / 20) (3 / 5 + 7 / 25 * lesionScoreM g + 1 / 10 * min (lateralM g) (1 / 5))

/-- Sum of the column indices of the high-intensity pixels (the mean of
`xs` in the lateralization step is this over `hiCountM`). -/
def hiXSum (g : Img) : ℚ :=
  sumR g.h fun y => sumR g.w fun x =>
    if hiThreshM g ≤ pxQ g y x then (x : ℚ) else 0

/-- The MRI findings list (`mri_model.py` lines 147–172): hint findings
first (de-duplicated), then the heuristic cues, appended verbatim. -/
def mriFindings (g : Img) (gf : List String) : List String :=
  let base := gf.foldl addUniq []
  let l1 := if meanImg g < 60 then ["Underexposed slice (dark)"] else []
  let l2 := if meanImg g > 200 then ["Overexposed slice (bright)"] else []
  let l3 := if lesionScoreM g > 1 / 4 then
      ["Focal high-variance region (possible lesion)"] else []
  let l4 :=
    if hiAreaM g > 3 / 200 then
      if 0 < hiCountM g then
        [("Large focal high-intensity region in ") ++
          (if hiXSum g / (hiCountM g : ℚ) < (g.w : ℚ) / 2 then "left" else "right") ++
          (" cerebral hemisphere")]
      else []
    else []
  let l5 := if lateralM g > 3 / 25 then
      ["Global hemispheric asymmetry (possible mass effect)"] else []
  let all := base ++ l1 ++ l2 ++ l3 ++ l4 ++ l5
  if all = [] then ["No strong abnormalities detected on snapshot"] else all

/-- The result of a successful `MRIModel.analyze_image` run (the stats
sub-dict is omitted; `confidence` carries the `round(·, 2)`). -/
structure MRIRes where
  label : String
  confidence : ℚ
  region : String
  finds : List String
deriving DecidableEq

/-- `MRIModel.analyze_image` on the heuristic path (no UNETR). -/
def mriFromGrid (g : Img) (gem : Option GemHint) : MRIRes :=
  let region := ((pyLower (pyOrStr (gemRegion gem) ("mri")).trim).replace ("_") ("-"))
  let label := region ++ (" mri - ") ++
    (if mriSusp g then "lesion suspected" else "no obvious abnormality")
  { label := label, confidence := round2 (mriConfRaw g), region := region,
    finds := mriFindings g (gemFinds gem) }

/-- What the MRI entry point hands back to the caller. -/
inductive MRITop where
  | ok (r : MRIRes)
  | fb (label : String) (confidence : ℚ) (error : String)
deriving DecidableEq

/-- The outer try/except of `MRIModel.analyze_image`: an internal error
yields `{"mri_label": "mri - analysis error", "mri_confidence": 0.0,
"error": str(e)}` and is never re-raised. -/
def mriEntry (body : Except String MRIRes) : MRITop :=
  match body with
  | .ok r => .ok r
  | .error e => .fb ("mri - analysis error") 0 e

/-- The reported confidence of a top-level MRI result. -/
def MRITop.confOf : MRITop → ℚ
  | .ok r => r.confidence
  | .fb _ c _ => c

/-- The reported label of a top-level MRI result. -/
def MRITop.labelOf : MRITop → String
  | .ok r => r.label
  | .fb l _ _ => l

/-- The recorded error of a top-level MRI result, if any. -/
def MRITop.errOf : MRITop → Option String
  | .ok _ => none
  | .fb _ _ e => some e

/-- The CT confidence before rounding:
`min(0.95, 0.60 + 0.28·lesion_score)` (`ct_model.py` line 146; its
`_local_var` is identical to the MRI one). -/
def ctConfRaw (g : Img) : ℚ := min (19 / 20) (3 / 5 + 7 / 25 * lesionScoreM g)

/-- The result of a successful `CTModel.analyze_image` run. -/
structure CTRes where
  label : String
  confidence : ℚ
  region : String
  finds : List String
deriving DecidableEq

/-- `CTModel.analyze_image` on the heuristic path.  `contrast` is the
standard deviation of the raw grid (see `IsStd`), used by the
chest-region suspicion rule. -/
def ctFromGrid (g : Img) (contrast : ℚ) (gem : Option GemHint) : CTRes :=
  let region := ((pyLower (pyOrStr (gemRegion gem) ("ct")).trim).replace ("_") ("-"))
  let isChest := hasSub region ("chest") || hasSub region ("lung")
  let susp :=
    (isChest && decide (lesionScoreM g > 11 / 50) && decide (contrast > 25)) ||
      (!isChest && (decide (lesionScoreM g > 3 / 10) || decide (hiAreaM g > 3 / 200)))
  let label := region ++ (" ct - ") ++
    (if susp then "lesion suspected" else "no obvious abnormality")
  let base := (gemFinds gem).foldl addUniq []
  let l1 := if meanImg g < 60 then ["Underexposed slice (dark)"] else []
  let l2 := if meanImg g > 200 then ["Overexposed slice (bright)"] else []
  let l3 := if isChest && decide (lesionScoreM g > 11 / 50) then
      ["Patchy parenchymal density (possible pulmonary opacity)"] else []
  let l4 := if !isChest && (decide (lesionScoreM g > 3 / 10) || decide (hiAreaM g > 3 / 200)) then
      ["Focal high-variance/high-intensity region (possible lesion)"] else []
  let all := base ++ l1 ++ l2 ++ l3 ++ l4
  { label := label, confidence := round2 (ctConfRaw g), region := region,
    finds := if all = [] then ["No strong abnormalities detected on snapshot"] else all }

/-- What the CT entry point hands back to the caller. -/
inductive CTTop where
  | ok (r : CTRes)
  | fb (label : String) (confidence : ℚ) (error : String)
deriving DecidableEq

/-- The outer try/except of `CTModel.analyze_image`: an internal error
yields `{"ct_label": "ct - analysis error", "ct_confidence": 0.0,
"error": str(e)}` and is never re-raised. -/
def ctEntry (body : Except String CTRes) : CTTop :=
  match body with
  | .ok r => .ok r
  | .error e => .fb ("ct - analysis error") 0 e

/-- The reported confidence of a top-level CT result. -/
def CTTop.confOf : CTTop → ℚ
  | .ok r => r.confidence
  | .fb _ c _ => c

/-- The reported label of a top-level CT result. -/
def CTTop.labelOf : CTTop → String
  | .ok r => r.label
  | .fb l _ _ => l

/-- The recorded error of a top-level CT result, if any. -/
def CTTop.errOf : CTTop → Option String
  | .ok _ => none
  | .fb _ _ e => some e

/-- The modality decision (value and confidence) as a function of the
gate inputs alone — the aspect ratio, the band ratio, the heuristic
`dental_like` and the external hint; `cnn_model.py` lines 167–190
restricted to the `modality`/`modality_conf` assignments. -/
def gateModality (aspect edgeR : ℚ) (dental0 : Bool) (gem : Option GemHint) :
    String × ℚ :=
  let base : String × ℚ :=
    if dentalRefined dental0 gem then
      ("non-chest-xray (dental/panoramic likely)",
        min (97 / 100) (7 / 10 + 1 / 10 * (aspect - 8 / 5) + 1 / 5 * (edgeR - 27 / 20)))
    else ("chest-xray", 17 / 20)
  match gem with
  | none => base
  | some gv =>
      if optTruthy gv.modality && decide (gv.conf ≠ 0) then
        if gv.modality = some ("chest-xray") then
          ("chest-xray", max base.2 (min (49 / 50) (4 / 5 + 3 / 20 * gv.conf)))
        else if gv.modality = some ("non-chest-xray") ∨ gv.modality = some ("document") ∨
            gv.modality = some ("other") then
          ("non-chest-xray (gemini)", max base.2 (min (49 / 50) (3 / 4 + 1 / 5 * gv.conf)))
        else base
      else base

/-- Does the hint force the chest-modality branch of lines 180–183? -/
def gemChestOverride (gem : Option GemHint) : Bool :=
  match gem with
  | none => false
  | some gv =>
      optTruthy gv.modality && decide (gv.conf ≠ 0) &&
        decide (gv.modality = some ("chest-xray"))

/-- Does the hint force the non-chest branch of lines 184–190? -/
def gemNonChestOverride (gem : Option GemHint) : Bool :=
  match gem with
  | none => false
  | some gv =>
      optTruthy gv.modality && decide (gv.conf ≠ 0) &&
        decide (gv.modality = some ("non-chest-xray") ∨
          gv.modality = some ("document") ∨ gv.modality = some ("other"))

/-- Modelled from the wording of claim C6: a bias correction that boosts
Normal and damps Pneumonia as the only adjustments, then renormalizes. -/
def biasClaim (v : V4) : V4 :=
  norm4 ⟨max (7 / 10) (v.n + 1 / 4), max (1 / 50) (v.p - 1 / 5), v.t, v.f⟩

/-! ## Helper lemmas: de-duplicating merge loops -/

theorem mem_addUniq_of_mem {acc : List String} {x : String} (s : String)
    (h : x ∈ acc) : x ∈ addUniq acc s := by
  unfold addUniq
  split
  · exact h
  · exact List.mem_append_left _ h

theorem mem_addUniq_self (acc : List String) (s : String) : s ∈ addUniq acc s := by
  unfold addUniq
  split
  · assumption
  · simp

theorem mem_foldl_addUniq_of_mem_acc {l : List String} {acc : List String} {x : String}
    (h : x ∈ acc) : x ∈ l.foldl addUniq acc := by
  induction l generalizing acc with
  | nil => exact h
  | cons a l ih => exact ih (mem_addUniq_of_mem a h)

theorem mem_foldl_addUniq_of_mem {l : List String} {x : String} (acc : List String)
    (h : x ∈ l) : x ∈ l.foldl addUniq acc := by
  induction l generalizing acc with
  | nil => cases h
  | cons a l ih =>
      rw [List.foldl_cons]
      rcases List.mem_cons.mp h with rfl | hx
      · exact mem_foldl_addUniq_of_mem_acc (mem_addUniq_self acc x)
      · exact ih _ hx

theorem mem_foldl_addUniq {l acc : List String} {x : String}
    (h : x ∈ l.foldl addUniq acc) : x ∈ acc ∨ x ∈ l := by
  induction l generalizing acc with
  | nil => exact Or.inl h
  | cons a l ih =>
      rcases ih h with hx | hx
      · unfold addUniq at hx
        split at hx
        · exact Or.inl hx
        · rcases List.mem_append.mp hx with hx | hx
          · exact Or.inl hx
          · simp only [List.mem_singleton] at hx
            exact Or.inr (hx ▸ List.mem_cons_self a l)
      · exact Or.inr (List.mem_cons_of_mem a hx)

theorem nodup_addUniq {acc : List String} (s : String) (h : acc.Nodup) :
    (addUniq acc s).Nodup := by
  unfold addUniq
  split
  · exact h
  · next hs =>
      refine List.Nodup.append h (List.nodup_singleton s) ?_
      intro x hx hx'
      simp only [List.mem_singleton] at hx'
      exact hs (hx' ▸ hx)

theorem nodup_foldl_addUniq (l : List String) {acc : List String} (h : acc.Nodup) :
    (l.foldl addUniq acc).Nodup := by
  induction l generalizing acc with
  | nil => exact h
  | cons a l ih => exact ih (nodup_addUniq a h)

theorem foldl_addUniq_append (l : List String) (acc : List String) :
    ∃ tail, l.foldl addUniq acc = acc ++ tail ∧ ∀ x ∈ tail, x ∈ l := by
  induction l generalizing acc with
  | nil => exact ⟨[], by simp, by simp⟩
  | cons a l ih =>
      show ∃ tail, l.foldl addUniq (addUniq acc a) = acc ++ tail ∧ _
      unfold addUniq
      split
      · rcases ih acc with ⟨t, ht, hmem⟩
        exact ⟨t, ht, fun x hx => List.mem_cons_of_mem a (hmem x hx)⟩
      · rcases ih (acc ++ [a]) with ⟨t, ht, hmem⟩
        refine ⟨a :: t, by simpa using ht, ?_⟩
        intro x hx
        rcases List.mem_cons.mp hx with rfl | hx
        · exact List.mem_cons_self _ _
        · exact List.mem_cons_of_mem a (hmem x hx)

theorem mergeF_decomp (gf hf : List String) :
    ∃ tail, mergeF gf hf = gf.foldl addUniq [] ++ tail ∧ ∀ x ∈ tail, x ∈ hf := by
  unfold mergeF
  rw [List.foldl_append]
  exact foldl_addUniq_append hf _

theorem mergeF_nodup (gf hf : List String) : (mergeF gf hf).Nodup :=
  nodup_foldl_addUniq _ List.nodup_nil

theorem mergeF_ne_nil {gf hf : List String} (h : hf ≠ []) : mergeF gf hf ≠ [] := by
  rcases List.exists_mem_of_ne_nil hf h with ⟨x, hx⟩
  unfold mergeF
  exact List.ne_nil_of_mem (mem_foldl_addUniq_of_mem _ (List.mem_append_right gf hx))

theorem ite_ne_nil (l : List String) (ph : String) :
    (if l = [] then [ph] else l) ≠ [] := by
  split
  · simp
  · assumption

theorem makeFindings_ne_nil (b c s e o : ℚ) (m : String) (r : Option String) :
    makeFindings b c s e o m r ≠ [] := by
  unfold makeFindings
  exact ite_ne_nil _ _

/-- An `if all-empty then single-phrase else all` findings list always
extends its external-findings prefix by some tail (the tail is the
single phrase when everything is empty, the heuristic block otherwise). -/
theorem exists_tail_of_ite (base rest : List String) (ph : String) :
    ∃ tail, (if base ++ rest = [] then [ph] else base ++ rest) = base ++ tail := by
  by_cases h : base ++ rest = []
  · rcases List.append_eq_nil.mp h with ⟨hb, _⟩
    subst hb
    exact ⟨[ph], by rw [if_pos h, List.nil_append]⟩
  · exact ⟨rest, by rw [if_neg h]⟩

/-! ## Helper lemmas: the probability-vector invariant -/

/-- Every component strictly positive and total mass exactly one. -/
def Pvec (v : V4) : Prop := 0 < v.n ∧ 0 < v.p ∧ 0 < v.t ∧ 0 < v.f ∧ sum4 v = 1

theorem norm4_P {v : V4} (hn : 0 < v.n) (hp : 0 < v.p) (ht : 0 < v.t)
    (hf : 0 < v.f) : Pvec (norm4 v) := by
  have hs : 0 < sum4 v := by unfold sum4 at *; linarith
  have hs' : sum4 v ≠ 0 := ne_of_gt hs
  unfold Pvec norm4 sum4 at *
  refine ⟨div_pos hn hs, div_pos hp hs, div_pos ht hs, div_pos hf hs, ?_⟩
  field_simp

theorem eps_pos : (0 : ℚ) < eps := by norm_num [eps]

theorem clampEps_P (v : V4) : Pvec (norm4 (clampEps v)) := by
  have h := eps_pos
  unfold clampEps
  exact norm4_P (lt_max_of_lt_right h) (lt_max_of_lt_right h)
    (lt_max_of_lt_right h) (lt_max_of_lt_right h)

theorem clsInit_P (b c s e o : ℚ) : Pvec (clsInit b c s e o).vec :=
  clampEps_P _

theorem clsPre_P (pre : Option V4) {st : ClsSt} (h : Pvec st.vec) :
    Pvec (clsPre pre st).vec := by
  unfold clsPre
  match pre with
  | none => exact h
  | some raw =>
      rcases clampEps_P raw with ⟨h1, h2, h3, h4, _⟩
      rcases h with ⟨g1, g2, g3, g4, _⟩
      exact norm4_P (by positivity) (by positivity) (by positivity) (by positivity)

theorem dentalStage_P (dental : Bool) (aspect edgeR : ℚ) {st : ClsSt}
    (h : Pvec st.vec) : Pvec (dentalStage dental aspect edgeR st).vec := by
  unfold dentalStage
  split
  · constructor <;> norm_num [sum4]
  · exact h

theorem gemStage_P (gem : Option GemHint) {st : MidSt} (h : Pvec st.vec) :
    Pvec (gemStage gem st).vec := by
  cases gem with
  | none => exact h
  | some gv =>
      simp only [gemStage]
      split
      · split
        · exact h
        · split
          · exact ⟨by norm_num, by norm_num, by norm_num, by norm_num, by norm_num [sum4]⟩
          · exact h
      · exact h

theorem biasStage_P (opacity : ℚ) {st : MidSt} (h : Pvec st.vec) :
    Pvec (biasStage opacity st).vec := by
  unfold biasStage
  split
  · rcases h with ⟨h1, h2, h3, h4, _⟩
    refine norm4_P ?_ ?_ ?_ ?_
    · exact lt_max_of_lt_left (by norm_num)
    · exact lt_max_of_lt_left (by norm_num)
    · positivity
    · positivity
  · exact h

/-! ## Helper lemmas: the uniform image -/

theorem flatG_congr {α : Type} (h w : ℕ) {f : ℕ → ℕ → α} (g : ℕ → ℕ → α)
    (hfg : ∀ y x, f y x = g y x) : flatG h w f = flatG h w g := by
  have : f = g := funext fun y => funext fun x => hfg y x
  rw [this]

theorem medPx_const (h w c y x : ℕ) : medPx (constImg h w c) y x = c := by
  show med9 (flatG 3 3 fun _ _ => c) = c
  rw [flatG_const]
  have hmem : ∀ v ∈ List.insertionSort (· ≤ ·) (List.replicate (3 * 3) c), v = c :=
    fun v hv =>
      List.eq_of_mem_replicate ((List.perm_insertionSort _ _).mem_iff.mp hv)
  have hlen : (List.insertionSort (· ≤ ·) (List.replicate (3 * 3) c)).length = 9 := by
    rw [List.length_insertionSort, List.length_replicate]
  exact getD_of_allEq_lt hmem (by omega)

theorem medianImg_h (img : Img) : (medianImg img).h = img.h := by
  dsimp only [medianImg]

theorem medianImg_w (img : Img) : (medianImg img).w = img.w := by
  dsimp only [medianImg]

theorem medianImg_px (img : Img) (y x : ℕ) : (medianImg img).px y x = medPx img y x := by
  dsimp only [medianImg]

theorem constImg_h (h w c : ℕ) : (constImg h w c).h = h := by
  dsimp only [constImg]

theorem constImg_w (h w c : ℕ) : (constImg h w c).w = w := by
  dsimp only [constImg]

theorem grayEq_h (img : Img) : (grayEq img).h = img.h := by
  dsimp only [grayEq, equalizeImg, medianImg]

theorem grayEq_w (img : Img) : (grayEq img).w = img.w := by
  dsimp only [grayEq, equalizeImg, medianImg]

theorem grayEq_px (img : Img) (y x : ℕ) :
    (grayEq img).px y x = lutPil (medianImg img) ((medianImg img).px y x) := by
  dsimp only [grayEq, equalizeImg]

theorem histCount_median_const (h w c : ℕ) (v : ℕ) :
    histCount (medianImg (constImg h w c)) v = if v = c then h * w else 0 := by
  unfold histCount
  rw [medianImg_h, medianImg_w, constImg_h, constImg_w,
    flatG_congr h w (fun _ _ => c)
      (fun y x => (medianImg_px _ y x).trans (medPx_const h w c y x)),
    flatG_const, List.count_replicate]
  by_cases hvc : v = c
  · subst hvc
    simp
  · have hcv : ¬c = v := fun hcv => hvc hcv.symm
    simp [hvc, hcv]

theorem histo_median_const_len (h w c : ℕ) :
    (histo (medianImg (constImg h w c))).length ≤ 1 := by
  unfold histo
  rw [← List.countP_eq_length_filter, List.countP_map]
  have hle : List.countP ((fun n => n ≠ 0 : ℕ → Bool) ∘ histCount (medianImg (constImg h w c)))
      (List.range 256) ≤ List.countP (· == c) (List.range 256) := by
    apply List.countP_mono_left
    intro v _ hv
    simp only [Function.comp_apply, histCount_median_const, ne_eq, decide_not] at hv
    by_cases hvc : v = c
    · simp [hvc]
    · simp [hvc] at hv
  refine le_trans hle ?_
  have hcount : List.countP (· == c) (List.range 256) = List.count c (List.range 256) :=
    (List.count_eq_countP _ _).symm
  rw [hcount]
  exact List.nodup_iff_count_le_one.mp (List.nodup_range 256) c

theorem grayEq_const_px (h w c : ℕ) (y x : ℕ) :
    (grayEq (constImg h w c)).px y x = c := by
  rw [grayEq_px, medianImg_px, medPx_const]
  unfold lutPil
  rw [if_pos (histo_median_const_len h w c)]

/-- Mean of any grid whose pixels are all equal to `c`. -/
theorem meanImg_of_const {G : Img} {c : ℕ} (hG : ∀ y x, G.px y x = c)
    (hwh : G.h * G.w ≠ 0) : meanImg G = c := by
  unfold meanImg
  have h1 : ∀ y, y < G.h → sumR G.w (fun x => pxQ G y x) = (G.w : ℚ) * c := by
    intro y _
    rw [sumR_congr fun x _ => show pxQ G y x = (c : ℚ) by rw [pxQ, hG], sumR_const]
  rw [sumR_congr h1, sumR_const]
  have hne : ((G.h : ℚ)) * (G.w : ℚ) ≠ 0 := by
    have h2 : ((G.h * G.w : ℕ) : ℚ) ≠ 0 := by exact_mod_cast hwh
    push_cast at h2
    exact h2
  push_cast
  field_simp
  ring

/-- Variance of a constant grid is zero. -/
theorem varImg_of_const {G : Img} {c : ℕ} (hG : ∀ y x, G.px y x = c)
    (hwh : G.h * G.w ≠ 0) : varImg G = 0 := by
  unfold varImg
  have hm := meanImg_of_const hG hwh
  have h1 : ∀ y, y < G.h →
      sumR G.w (fun x => (pxQ G y x - meanImg G) ^ 2) = 0 := by
    intro y _
    rw [sumR_congr fun x _ => show (pxQ G y x - meanImg G) ^ 2 = 0 by
      rw [pxQ, hG, hm]; ring]
    exact sumR_zero G.w
  rw [sumR_congr h1, sumR_zero, zero_div]

/-- The Laplacian of a constant grid vanishes pointwise. -/
theorem lapPx_of_const {G : Img} {c : ℕ} (hG : ∀ y x, G.px y x = c) (y x : ℕ) :
    lapPx G y x = 0 := by
  unfold lapPx pxQ
  rw [hG, hG, hG, hG, hG]
  ring

/-- Sharpness (variance of the Laplacian) of a constant grid is zero. -/
theorem sharpness_of_const {G : Img} {c : ℕ} (hG : ∀ y x, G.px y x = c) :
    sharpnessOf G = 0 := by
  have hlm : lapMean G = 0 := by
    unfold lapMean
    rw [sumR_congr fun y _ => (sumR_congr fun x _ => lapPx_of_const hG y x).trans
      (sumR_zero G.w), sumR_zero, zero_div]
  unfold sharpnessOf
  rw [sumR_congr fun y _ => (sumR_congr fun x _ => show (lapPx G y x - lapMean G) ^ 2 = 0 by
    rw [lapPx_of_const hG, hlm]; ring).trans (sumR_zero G.w), sumR_zero, zero_div]

/-- Edge score of a constant grid is zero. -/
theorem edgeScore_of_const {G : Img} {c : ℕ} (hG : ∀ y x, G.px y x = c) :
    edgeScoreOf G = 0 := by
  unfold edgeScoreOf
  rw [sumR_congr fun y _ => (sumR_congr fun x _ =>
      show |pxQ G y (x + 1) - pxQ G y x| = 0 by unfold pxQ; rw [hG, hG]; simp).trans
    (sumR_zero _), sumR_zero]
  rw [sumR_congr fun y _ => (sumR_congr fun x _ =>
      show |pxQ G (y + 1) x - pxQ G y x| = 0 by unfold pxQ; rw [hG, hG]; simp).trans
    (sumR_zero _), sumR_zero]
  norm_num

/-- The 15×15 box means of a constant grid. -/
theorem boxMean_of_const {G : Img} {c : ℕ} (hG : ∀ y x, G.px y x = c) (y x : ℕ) :
    boxMean G y x = c := by
  unfold boxMean
  rw [sumR_congr fun dy _ => (sumR_congr fun dx _ =>
      show pxQ G _ _ = (c : ℚ) by unfold pxQ; rw [hG]).trans (sumR_const 15 (c : ℚ))]
  rw [sumR_const, div_eq_iff (by norm_num : (225 : ℚ) ≠ 0)]
  ring

theorem boxMean2_of_const {G : Img} {c : ℕ} (hG : ∀ y x, G.px y x = c) (y x : ℕ) :
    boxMean2 G y x = (c : ℚ) ^ 2 := by
  unfold boxMean2
  rw [sumR_congr fun dy _ => (sumR_congr fun dx _ =>
      show pxQ G _ _ ^ 2 = ((c : ℚ) ^ 2) by unfold pxQ; rw [hG]).trans
    (sumR_const 15 ((c : ℚ) ^ 2))]
  rw [sumR_const, div_eq_iff (by norm_num : (225 : ℚ) ≠ 0)]
  ring

theorem localVarCNN_of_const {G : Img} {c : ℕ} (hG : ∀ y x, G.px y x = c) (y x : ℕ) :
    localVarCNN G y x = 0 := by
  unfold localVarCNN
  rw [boxMean_of_const hG, boxMean2_of_const hG]
  simp

/-- Opacity score of a constant grid is zero. -/
theorem opacity_of_const {G : Img} {c : ℕ} (hG : ∀ y x, G.px y x = c) :
    opacityOf G = 0 := by
  have hlv : lvListCNN G = List.replicate (G.h * G.w) 0 := by
    unfold lvListCNN
    rw [flatG_congr G.h G.w (fun _ _ => 0) fun y x => localVarCNN_of_const hG y x]
    exact flatG_const G.h G.w 0
  have hq : varQ95 G = 0 := by
    unfold varQ95
    rw [hlv]
    exact quantileQ_of_allZero (fun v hv => List.eq_of_mem_replicate hv) _
  have hm : varMeanCNN G = 0 := by
    unfold varMeanCNN
    rw [hlv, List.sum_replicate]
    simp
  unfold opacityOf
  rw [hq, hm]
  norm_num [eps]

/-- Edge-map band means of a constant grid are zero. -/
theorem bandMeanEM_of_const {G : Img} {c : ℕ} (hG : ∀ y x, G.px y x = c) (y0 y1 : ℕ) :
    bandMeanEM G y0 y1 = 0 := by
  unfold bandMeanEM
  rw [sumR_congr fun dy _ => (sumR_congr fun x _ =>
      show emPx G (y0 + dy) x = 0 by unfold emPx pxQ; rw [hG, hG, hG]; simp).trans
    (sumR_zero _), sumR_zero, zero_div]

/-- Brightness band means of a constant grid equal the constant. -/
theorem bandMeanPx_of_const {G : Img} {c : ℕ} (hG : ∀ y x, G.px y x = c) (y0 y1 : ℕ)
    (hnz : (y1 - y0) * G.w ≠ 0) : bandMeanPx G y0 y1 = c := by
  unfold bandMeanPx
  rw [sumR_congr fun dy _ => (sumR_congr fun x _ =>
      show pxQ G (y0 + dy) x = (c : ℚ) by unfold pxQ; rw [hG]).trans
    (sumR_const G.w (c : ℚ)), sumR_const]
  have hne : (((y1 - y0) * G.w : ℕ) : ℚ) ≠ 0 := by exact_mod_cast hnz
  push_cast at hne ⊢
  field_simp
  ring

theorem edgeBandR_of_const {G : Img} {c : ℕ} (hG : ∀ y x, G.px y x = c) :
    edgeBandR G = 1 := by
  unfold edgeBandR
  rw [bandMeanEM_of_const hG, bandMeanEM_of_const hG]
  rw [zero_add, div_self (by norm_num [eps])]

theorem brightBandR_of_const {G : Img} {c : ℕ} (hG : ∀ y x, G.px y x = c)
    (h1 : (G.h - 66 * G.h / 100) * G.w ≠ 0) (h2 : (33 * G.h / 100 - 0) * G.w ≠ 0) :
    brightBandR G = 1 := by
  unfold brightBandR
  rw [bandMeanPx_of_const hG _ _ h1, bandMeanPx_of_const hG _ _ h2]
  rw [div_self]
  have : (0 : ℚ) ≤ c := by positivity
  have he := eps_pos
  positivity

/-! ## Helper lemmas: nonnegativity of the volumetric statistics -/

theorem sumR_nonneg {n : ℕ} {f : ℕ → ℚ} (h : ∀ i, 0 ≤ f i) : 0 ≤ sumR n f :=
  List.sum_nonneg fun x hx => by
    rcases List.mem_map.mp hx with ⟨i, _, rfl⟩
    exact h i

theorem meanImg_nonneg (g : Img) : 0 ≤ meanImg g :=
  div_nonneg (sumR_nonneg fun _ => sumR_nonneg fun _ => Nat.cast_nonneg _)
    (Nat.cast_nonneg _)

theorem lesionScoreM_nonneg (g : Img) : 0 ≤ lesionScoreM g := le_max_left 0 _

theorem lateralM_nonneg (g : Img) : 0 ≤ lateralM g :=
  div_nonneg (abs_nonneg _)
    (le_of_lt (add_pos_of_nonneg_of_pos (meanImg_nonneg g) eps_pos))

theorem mriConfRaw_bounds (g : Img) : 3 / 5 ≤ mriConfRaw g ∧ mriConfRaw g ≤ 19 / 20 := by
  have hls := lesionScoreM_nonneg g
  have hld := lateralM_nonneg g
  have hmin : 0 ≤ min (lateralM g) (1 / 5) := le_min hld (by norm_num)
  refine ⟨le_min (by norm_num) (by nlinarith), min_le_left _ _⟩

theorem ctConfRaw_bounds (g : Img) : 3 / 5 ≤ ctConfRaw g ∧ ctConfRaw g ≤ 19 / 20 := by
  have hls := lesionScoreM_nonneg g
  refine ⟨le_min (by norm_num) (by nlinarith), min_le_left _ _⟩

theorem cnnFromStats_conf_bounds (b c s e o aspect eR bR : ℚ) (d0 : Bool)
    (pre : Option V4) (gem : Option GemHint) :
    11 / 20 ≤ (cnnFromStats b c s e o aspect eR bR d0 pre gem).confidence ∧
      (cnnFromStats b c s e o aspect eR bR d0 pre gem).confidence ≤ 93 / 100 := by
  unfold cnnFromStats
  dsimp only
  set x := (biasStage o (gemStage gem (dentalStage (dentalRefined d0 gem) aspect eR
    (clsPre pre (clsInit b c s e o))))).conf with hx
  have h1 : (11 / 20 : ℚ) ≤ max (11 / 20) (min (93 / 100) x) := le_max_left _ _
  have h2 : max (11 / 20 : ℚ) (min (93 / 100) x) ≤ 93 / 100 :=
    max_le (by norm_num) (min_le_left _ _)
  constructor
  · have hcb : ((55 : ℤ) : ℚ) ≤ 100 * max (11 / 20) (min (93 / 100) x) := by
      push_cast
      linarith
    have := le_round2 hcb
    push_cast at this
    linarith
  · have hcb : 100 * max (11 / 20 : ℚ) (min (93 / 100) x) ≤ ((93 : ℤ) : ℚ) := by
      push_cast
      linarith
    have := round2_le hcb
    push_cast at this
    linarith

theorem round2_bounds_of_bounds {lo hi : ℤ} {x : ℚ} (h1 : (lo : ℚ) / 100 ≤ x)
    (h2 : x ≤ (hi : ℚ) / 100) : (lo : ℚ) / 100 ≤ round2 x ∧ round2 x ≤ (hi : ℚ) / 100 :=
  ⟨le_round2 (by linarith), round2_le (by linarith)⟩

/-! ## C1 — probability map normalization and positivity -/

/-- C1: for every grayscale grid (and any contrast value, optional
pretrained map and optional hint — i.e. in every branch: heuristic-only,
pretrained-blended, dental/non-chest override, and after bias
correction), the returned probability map of the planar analyzer sums to
exactly 1 and every component is strictly positive. -/
theorem c1_probability_map_normalized (img : Img) (cc : ℚ) (pre : Option V4)
    (gem : Option GemHint) :
    sum4 (cnnAnalyze img cc pre gem).probs = 1 ∧
    0 < (cnnAnalyze img cc pre gem).probs.n ∧
    0 < (cnnAnalyze img cc pre gem).probs.p ∧
    0 < (cnnAnalyze img cc pre gem).probs.t ∧
    0 < (cnnAnalyze img cc pre gem).probs.f := by
  have hP : Pvec (cnnAnalyze img cc pre gem).probs := by
    unfold cnnAnalyze cnnFromStats
    dsimp only
    exact biasStage_P _ (gemStage_P _ (dentalStage_P _ _ _
      (clsPre_P _ (clsInit_P _ _ _ _ _))))
  exact ⟨hP.2.2.2.2, hP.1, hP.2.1, hP.2.2.1, hP.2.2.2.1⟩

/-! ## C2 — confidence bounds -/

/-- C2: the planar confidence (including the internal-error fallback)
always lies in [0.55, 0.93], and the volumetric MRI and CT confidences
(including their fallbacks) always lie in [0, 0.95]. -/
theorem c2_confidence_within_documented_bounds (img : Img) (cc : ℚ)
    (pre : Option V4) (gem gm gc : Option GemHint) (g gct : Img) (cct : ℚ)
    (err : String) :
    (11 / 20 ≤ (cnnAnalyze img cc pre gem).confidence ∧
      (cnnAnalyze img cc pre gem).confidence ≤ 93 / 100) ∧
    (11 / 20 ≤ (cnnEntry (Except.error err)).confOf ∧
      (cnnEntry (Except.error err)).confOf ≤ 93 / 100) ∧
    (0 ≤ (mriFromGrid g gm).confidence ∧ (mriFromGrid g gm).confidence ≤ 19 / 20) ∧
    (0 ≤ (mriEntry (Except.error err)).confOf ∧
      (mriEntry (Except.error err)).confOf ≤ 19 / 20) ∧
    (0 ≤ (ctFromGrid gct cct gc).confidence ∧
      (ctFromGrid gct cct gc).confidence ≤ 19 / 20) ∧
    (0 ≤ (ctEntry (Except.error err)).confOf ∧
      (ctEntry (Except.error err)).confOf ≤ 19 / 20) := by
  refine ⟨?_, ?_, ?_, ?_, ?_, ?_⟩
  · exact cnnFromStats_conf_bounds _ _ _ _ _ _ _ _ _ _ _
  · unfold cnnEntry CNNTop.confOf
    norm_num
  · unfold mriFromGrid
    dsimp only
    rcases mriConfRaw_bounds g with ⟨hl, hr⟩
    have h1b : ((0 : ℤ) : ℚ) / 100 ≤ mriConfRaw g := by
      push_cast
      linarith
    have h2b : mriConfRaw g ≤ ((95 : ℤ) : ℚ) / 100 := by
      push_cast
      linarith
    have := round2_bounds_of_bounds h1b h2b
    push_cast at this
    constructor <;> linarith [this.1, this.2]
  · unfold mriEntry MRITop.confOf
    norm_num
  · unfold ctFromGrid
    dsimp only
    rcases ctConfRaw_bounds gct with ⟨hl, hr⟩
    have h1b : ((0 : ℤ) : ℚ) / 100 ≤ ctConfRaw gct := by
      push_cast
      linarith
    have h2b : ctConfRaw gct ≤ ((95 : ℤ) : ℚ) / 100 := by
      push_cast
      linarith
    have := round2_bounds_of_bounds h1b h2b
    push_cast at this
    constructor <;> linarith [this.1, this.2]
  · unfold ctEntry CTTop.confOf
    norm_num

/-! ## C3 — the uniform 224×224 image -/

theorem grayEq224_px (y x : ℕ) : (grayEq (constImg 224 224 128)).px y x = 128 :=
  grayEq_const_px 224 224 128 y x

theorem grayEq224_dim : (grayEq (constImg 224 224 128)).h * (grayEq (constImg 224 224 128)).w ≠ 0 := by
  rw [grayEq_h, grayEq_w, constImg_h, constImg_w]
  norm_num

theorem mean224 : meanImg (grayEq (constImg 224 224 128)) = 128 := by
  rw [meanImg_of_const grayEq224_px grayEq224_dim]
  norm_num

theorem var224 : varImg (grayEq (constImg 224 224 128)) = 0 :=
  varImg_of_const grayEq224_px grayEq224_dim

theorem sharp224 : sharpnessOf (grayEq (constImg 224 224 128)) = 0 :=
  sharpness_of_const grayEq224_px

theorem edge224 : edgeScoreOf (grayEq (constImg 224 224 128)) = 0 :=
  edgeScore_of_const grayEq224_px

theorem opac224 : opacityOf (grayEq (constImg 224 224 128)) = 0 :=
  opacity_of_const grayEq224_px

theorem aspect224 : aspectOf (constImg 224 224 128) = 1 := by
  unfold aspectOf
  rw [constImg_h, constImg_w]
  norm_num

theorem edgeBandR224 : edgeBandR (grayEq (constImg 224 224 128)) = 1 :=
  edgeBandR_of_const grayEq224_px

theorem brightBandR224 : brightBandR (grayEq (constImg 224 224 128)) = 1 := by
  refine brightBandR_of_const grayEq224_px ?_ ?_ <;>
    (rw [grayEq_h, grayEq_w, constImg_h, constImg_w]; decide)

theorem dental224 : dentalGate (constImg 224 224 128) = false := by
  unfold dentalGate
  rw [aspect224]
  have h1 : decide ((1 : ℚ) > 8 / 5) = false := by
    rw [decide_eq_false_iff_not]
    norm_num
  rw [h1, Bool.false_and]

/-- C3: on the uniform 224×224 image of value 128, the extracted
features satisfy contrast = 0 (the variance of `gray_eq` is zero, so
its nonnegative square root is zero), sharpness = 0, edge score = 0 and
opacity score = 0; and for that contrast the planar analyzer predicts
class Normal (index 0, label "Normal") with returned confidence ≥ 0.70
after bias correction and a Normal probability above 0.7. -/
theorem c3_uniform_image_normal :
    varImg (grayEq (constImg 224 224 128)) = 0 ∧
    sharpnessOf (grayEq (constImg 224 224 128)) = 0 ∧
    edgeScoreOf (grayEq (constImg 224 224 128)) = 0 ∧
    opacityOf (grayEq (constImg 224 224 128)) = 0 ∧
    ∀ cc : ℚ, IsStd (varImg (grayEq (constImg 224 224 128))) cc →
      cc = 0 ∧
      (cnnAnalyze (constImg 224 224 128) cc none none).prediction = 0 ∧
      (cnnAnalyze (constImg 224 224 128) cc none none).classLabel = "Normal" ∧
      7 / 10 ≤ (cnnAnalyze (constImg 224 224 128) cc none none).confidence ∧
      7 / 10 < (cnnAnalyze (constImg 224 224 128) cc none none).probs.n := by
  refine ⟨var224, sharp224, edge224, opac224, ?_⟩
  intro cc hcc
  have hcc0 : cc = 0 := IsStd.zero (var224 ▸ hcc)
  subst hcc0
  refine ⟨rfl, ?_⟩
  unfold cnnAnalyze
  rw [mean224, sharp224, edge224, opac224, aspect224, edgeBandR224, brightBandR224,
    dental224]
  refine ⟨?_, ?_, ?_, ?_⟩ <;> with_unfolding_all decide

/-- Closed witness for the hypothesis of `c3_uniform_image_normal`. -/
theorem c3_uniform_image_normal_witness :
    IsStd (varImg (grayEq (constImg 224 224 128))) 0 ∧
    (cnnAnalyze (constImg 224 224 128) 0 none none).prediction = 0 ∧
    (cnnAnalyze (constImg 224 224 128) 0 none none).classLabel = "Normal" := by
  have hstd : IsStd (varImg (grayEq (constImg 224 224 128))) 0 := by
    constructor
    · norm_num
    · rw [var224]
      norm_num
  have h := (c3_uniform_image_normal.2.2.2.2) 0 hstd
  exact ⟨hstd, h.2.1, h.2.2.1⟩

/-! ## C4 — the dental/non-chest gate rule -/

theorem biasStage_modality (o : ℚ) (st : MidSt) : (biasStage o st).modality = st.modality := by
  unfold biasStage
  split <;> rfl

theorem biasStage_mconf (o : ℚ) (st : MidSt) : (biasStage o st).mconf = st.mconf := by
  unfold biasStage
  split <;> rfl

theorem gemStage_none (st : MidSt) : gemStage none st = st := rfl

theorem dentalRefined_none (d : Bool) : dentalRefined d none = d := rfl

theorem dentalStage_modality (d : Bool) (a e : ℚ) (st : ClsSt) :
    (dentalStage d a e st).modality =
      if d then "non-chest-xray (dental/panoramic likely)" else "chest-xray" := by
  cases d <;> rfl

theorem dentalStage_mconf (d : Bool) (a e : ℚ) (st : ClsSt) :
    (dentalStage d a e st).mconf =
      if d then min (97 / 100) (7 / 10 + 1 / 10 * (a - 8 / 5) + 1 / 5 * (e - 27 / 20))
      else 17 / 20 := by
  cases d <;> rfl

theorem dentalGate_iff (img : Img) :
    dentalGate img = true ↔
      aspectOf img > 8 / 5 ∧
        (edgeBandR (grayEq img) > 27 / 20 ∨ brightBandR (grayEq img) > 28 / 25) := by
  unfold dentalGate
  simp

/-- C4 (amended): with no external hint, the planar analyzer takes the
non-chest/dental path exactly when `aspect > 1.6` and (the bottom-third
over top-third edge-band ratio exceeds 1.35 or the bottom-third over
top-third brightness-band ratio exceeds 1.12) — a three-band (thirds)
split, not a two-band one. -/
theorem c4_dental_gate_rule (img : Img) (cc : ℚ) (pre : Option V4) :
    ((cnnAnalyze img cc pre none).modality.startsWith ("non-chest")) = true ↔
      aspectOf img > 8 / 5 ∧
        (edgeBandR (grayEq img) > 27 / 20 ∨ brightBandR (grayEq img) > 28 / 25) := by
  have hmod : (cnnAnalyze img cc pre none).modality =
      if dentalGate img then "non-chest-xray (dental/panoramic likely)"
      else "chest-xray" := by
    unfold cnnAnalyze cnnFromStats
    dsimp only
    rw [biasStage_modality, dentalRefined_none, gemStage_none, dentalStage_modality]
  rw [hmod]
  cases hdg : dentalGate img
  · have hrhs : ¬(aspectOf img > 8 / 5 ∧
        (edgeBandR (grayEq img) > 27 / 20 ∨ brightBandR (grayEq img) > 28 / 25)) := by
      intro hp
      have ht := (dentalGate_iff img).mpr hp
      rw [ht] at hdg
      exact absurd hdg (by decide)
    simp only [Bool.false_eq_true, if_false]
    exact iff_of_false (by with_unfolding_all decide) hrhs
  · have hrhs := (dentalGate_iff img).mp hdg
    simp only [if_true]
    exact iff_of_true (by with_unfolding_all decide) hrhs

/-! ## C5 — the MRI suspicion rule and confidence -/

/-- C5 (amended): on the heuristic path (no hint), the MRI label
contains "lesion suspected" exactly when the suspicion rule fires, and
the returned confidence equals
`min(0.95, 0.60 + 0.28·lesion_score + 0.10·min(lateral_diff, 0.2))`
rounded to two decimal places. -/
theorem c5_mri_label_and_confidence (g : Img) (_h15 : 15 ≤ g.h) (_w15 : 15 ≤ g.w) :
    (hasSub (mriFromGrid g none).label ("lesion suspected") = true ↔ mriSusp g = true) ∧
    (mriFromGrid g none).confidence = round2 (mriConfRaw g) := by
  constructor
  · unfold mriFromGrid
    dsimp only
    cases hs : mriSusp g <;> with_unfolding_all decide
  · rfl

/-- Closed witness for the hypotheses of `c5_mri_label_and_confidence`. -/
theorem c5_mri_label_and_confidence_witness :
    15 ≤ (constImg 15 15 0).h ∧ 15 ≤ (constImg 15 15 0).w ∧
    ((hasSub (mriFromGrid (constImg 15 15 0) none).label ("lesion suspected") = true ↔
        mriSusp (constImg 15 15 0) = true) ∧
      (mriFromGrid (constImg 15 15 0) none).confidence =
        round2 (mriConfRaw (constImg 15 15 0))) := by
  have hh : (15 : ℕ) ≤ (constImg 15 15 0).h := by
    rw [constImg_h]
  have hw' : (15 : ℕ) ≤ (constImg 15 15 0).w := by
    rw [constImg_w]
  exact ⟨hh, hw', c5_mri_label_and_confidence _ hh hw'⟩

/-! ## C6 — the bias-correction step -/

/-- The classifier state as it enters the bias-correction step. -/
def vecPreBias (b c s e o aspect eR : ℚ) (d0 : Bool) (pre : Option V4)
    (gem : Option GemHint) : MidSt :=
  gemStage gem (dentalStage (dentalRefined d0 gem) aspect eR
    (clsPre pre (clsInit b c s e o)))

/-- The bias transformation of the source (`cnn_model.py` lines 194–200):
boost Normal, damp Pneumonia, and scale Tumor and Fracture by 0.95,
then renormalize. -/
def biasedVec (v : V4) : V4 :=
  norm4 ⟨max (7 / 10) (v.n + 1 / 4), max (1 / 50) (v.p - 1 / 5),
    v.t * (19 / 20), v.f * (19 / 20)⟩

/-- C6 (amended): whenever the modality entering the bias step is
chest-xray and `opacity_score < 0.22`, the returned probabilities are
the renormalized vector obtained by setting Normal to
`max(0.70, N + 0.25)`, Pneumonia to `max(0.02, P − 0.20)` **and scaling
Tumor and Fracture by 0.95**, and the predicted class and confidence are
re-derived from that renormalized vector. -/
theorem c6_bias_correction_step (b c s e o aspect eR bR : ℚ) (d0 : Bool)
    (pre : Option V4) (gem : Option GemHint)
    (hm : (vecPreBias b c s e o aspect eR d0 pre gem).modality = "chest-xray")
    (ho : o < 11 / 50) :
    (cnnFromStats b c s e o aspect eR bR d0 pre gem).probs =
      biasedVec (vecPreBias b c s e o aspect eR d0 pre gem).vec ∧
    (cnnFromStats b c s e o aspect eR bR d0 pre gem).prediction =
      argmax4 (biasedVec (vecPreBias b c s e o aspect eR d0 pre gem).vec) ∧
    (cnnFromStats b c s e o aspect eR bR d0 pre gem).confidence =
      round2 (max (11 / 20) (min (93 / 100)
        (comp4 (biasedVec (vecPreBias b c s e o aspect eR d0 pre gem).vec)
          (argmax4 (biasedVec (vecPreBias b c s e o aspect eR d0 pre gem).vec))))) := by
  have hb : biasStage o (vecPreBias b c s e o aspect eR d0 pre gem) =
      { vecPreBias b c s e o aspect eR d0 pre gem with
        vec := biasedVec (vecPreBias b c s e o aspect eR d0 pre gem).vec
        idx := argmax4 (biasedVec (vecPreBias b c s e o aspect eR d0 pre gem).vec)
        conf := comp4 (biasedVec (vecPreBias b c s e o aspect eR d0 pre gem).vec)
          (argmax4 (biasedVec (vecPreBias b c s e o aspect eR d0 pre gem).vec)) } := by
    unfold biasStage biasedVec
    rw [if_pos (And.intro hm ho)]
  unfold cnnFromStats
  dsimp only
  rw [show gemStage gem (dentalStage (dentalRefined d0 gem) aspect eR
      (clsPre pre (clsInit b c s e o))) =
    vecPreBias b c s e o aspect eR d0 pre gem from rfl, hb]
  exact ⟨rfl, rfl, rfl⟩

/-- Closed witness for the hypotheses of `c6_bias_correction_step`. -/
theorem c6_bias_correction_step_witness :
    (vecPreBias 128 0 0 0 0 1 1 false none none).modality = "chest-xray" ∧
    (0 : ℚ) < 11 / 50 ∧
    (cnnFromStats 128 0 0 0 0 1 1 1 false none none).probs =
      biasedVec (vecPreBias 128 0 0 0 0 1 1 false none none).vec := by
  have hm : (vecPreBias 128 0 0 0 0 1 1 false none none).modality = "chest-xray" := by
    with_unfolding_all decide
  exact ⟨hm, by norm_num,
    (c6_bias_correction_step 128 0 0 0 0 1 1 1 false none none hm (by norm_num)).1⟩

/-- C6 counterexample: at concrete features (brightness 90, contrast 80,
sharpness 75, edge 65, opacity 0) on the chest path, the returned Tumor
probability differs from the one predicted by the claimed
"only adjustments are Normal and Pneumonia" transformation. -/
theorem c6_only_adjustments_counterexample :
    (cnnFromStats 90 80 75 65 0 1 1 1 false none none).probs.t ≠
      (biasClaim (vecPreBias 90 80 75 65 0 1 1 false none none).vec).t := by
  with_unfolding_all decide

/-! ## C7 — entry-point fallbacks -/

/-- C7 (amended): an internal error never propagates; the planar entry
point returns prediction 0 (Normal) with the fixed confidence 0.72 and
the error recorded, while the MRI and CT entry points return the fixed
labels "mri - analysis error" / "ct - analysis error" with confidence
0.0 and the error recorded. -/
theorem c7_entry_fallbacks (e : String) :
    cnnEntry (Except.error e) = CNNTop.fb 0 (18 / 25) ("Normal") e ∧
    mriEntry (Except.error e) = MRITop.fb ("mri - analysis error") 0 e ∧
    ctEntry (Except.error e) = CTTop.fb ("ct - analysis error") 0 e ∧
    (cnnEntry (Except.error e)).errOf = some e ∧
    (mriEntry (Except.error e)).errOf = some e ∧
    (ctEntry (Except.error e)).errOf = some e :=
  ⟨rfl, rfl, rfl, rfl, rfl, rfl⟩

/-- C7 counterexample: the MRI (and CT) fallback result carries
confidence 0.0 — not a moderate confidence — and an "analysis error"
label rather than a Normal classification. -/
theorem c7_volumetric_fallback_counterexample :
    (mriEntry (Except.error ("boom"))).confOf = 0 ∧
    ¬((1 : ℚ) / 2 ≤ (mriEntry (Except.error ("boom"))).confOf) ∧
    (mriEntry (Except.error ("boom"))).labelOf = "mri - analysis error" ∧
    (ctEntry (Except.error ("boom"))).confOf = 0 ∧
    (ctEntry (Except.error ("boom"))).labelOf = "ct - analysis error" := by
  refine ⟨rfl, ?_, rfl, rfl, rfl⟩
  unfold mriEntry MRITop.confOf
  norm_num

/-! ## C9 — the modality decision precedes classification -/

/-- C9: the reported modality and its confidence are exactly the gate
decision `gateModality`, a function of the gate inputs (aspect ratio,
edge-band ratio, heuristic `dental_like`, external hint) alone — they do
not depend on the extracted classification features, the pretrained
probability map, or anything computed by the classifier, so the decision
is made once, before classification, and never revised by it. -/
theorem c9_modality_decided_by_gate (b c s e o aspect eR bR : ℚ) (d0 : Bool)
    (pre : Option V4) (gem : Option GemHint) :
    (cnnFromStats b c s e o aspect eR bR d0 pre gem).modality =
      (gateModality aspect eR d0 gem).1 ∧
    (cnnFromStats b c s e o aspect eR bR d0 pre gem).modalityConf =
      round2 (gateModality aspect eR d0 gem).2 := by
  unfold cnnFromStats
  dsimp only
  rw [biasStage_modality, biasStage_mconf]
  unfold gateModality
  cases gem with
  | none =>
      rw [dentalRefined_none, gemStage_none]
      cases d0 <;> exact ⟨rfl, rfl⟩
  | some gv =>
      simp only [gemStage]
      cases hd : dentalRefined d0 (some gv) <;>
        · by_cases h1 : (optTruthy gv.modality && decide (gv.conf ≠ 0)) = true
          · rw [if_pos h1, if_pos h1]
            by_cases h2 : gv.modality = some ("chest-xray")
            · rw [if_pos h2, if_pos h2]
              exact ⟨rfl, rfl⟩
            · rw [if_neg h2, if_neg h2]
              by_cases h3 : gv.modality = some ("non-chest-xray") ∨
                  gv.modality = some ("document") ∨ gv.modality = some ("other")
              · rw [if_pos h3, if_pos h3]
                exact ⟨rfl, rfl⟩
              · rw [if_neg h3, if_neg h3]
                exact ⟨rfl, rfl⟩
          · rw [if_neg h1, if_neg h1]
            exact ⟨rfl, rfl⟩

/-! ## C10 — the forced vector after the non-chest override -/

/-- C10: when the dental/non-chest override fires and the hint does not
subsequently report chest-xray modality, the bias correction is skipped
and the returned probability vector is exactly the forced vector:
[0.90, 0.04, 0.03, 0.03] when the hint forced non-chest behaviour,
[0.88, 0.04, 0.04, 0.04] otherwise; the prediction is Normal. -/
theorem c10_forced_vector_after_override (b c s e o aspect eR bR : ℚ) (d0 : Bool)
    (pre : Option V4) (gem : Option GemHint)
    (hd : dentalRefined d0 gem = true)
    (hg : gemChestOverride gem = false) :
    (cnnFromStats b c s e o aspect eR bR d0 pre gem).probs =
      (if gemNonChestOverride gem then (⟨9 / 10, 1 / 25, 3 / 100, 3 / 100⟩ : V4)
       else ⟨22 / 25, 1 / 25, 1 / 25, 1 / 25⟩) ∧
    (cnnFromStats b c s e o aspect eR bR d0 pre gem).prediction = 0 := by
  have hskip : ∀ (oo : ℚ) (st : MidSt), ¬st.modality = "chest-xray" →
      biasStage oo st = st := by
    intro oo st hmm
    unfold biasStage
    rw [if_neg fun hcon => hmm hcon.1]
  unfold cnnFromStats
  dsimp only
  rw [hd]
  cases gem with
  | none =>
      rw [gemStage_none, hskip _ _ (by rw [dentalStage_modality]; decide),
        show gemNonChestOverride none = false from rfl, if_neg (by decide)]
      exact ⟨rfl, rfl⟩
  | some gv =>
      simp only [gemChestOverride] at hg
      simp only [gemStage]
      by_cases h1 : (optTruthy gv.modality && decide (gv.conf ≠ 0)) = true
      · rw [if_pos h1]
        by_cases h2 : gv.modality = some ("chest-xray")
        · exfalso
          rw [h1, Bool.true_and, decide_eq_true h2] at hg
          exact absurd hg (by decide)
        · rw [if_neg h2]
          by_cases h3 : gv.modality = some ("non-chest-xray") ∨
              gv.modality = some ("document") ∨ gv.modality = some ("other")
          · have hnco : gemNonChestOverride (some gv) = true := by
              simp only [gemNonChestOverride]
              rw [h1, Bool.true_and]
              exact decide_eq_true h3
            rw [if_pos h3, hnco, if_pos rfl, hskip _ _ (by dsimp only; decide)]
            exact ⟨rfl, rfl⟩
          · have hnco : gemNonChestOverride (some gv) = false := by
              simp only [gemNonChestOverride]
              rw [h1, Bool.true_and]
              exact decide_eq_false h3
            rw [if_neg h3, hnco, if_neg (by decide),
              hskip _ _ (by rw [dentalStage_modality]; decide)]
            exact ⟨rfl, rfl⟩
      · have h1f : (optTruthy gv.modality && decide (gv.conf ≠ 0)) = false :=
          Bool.eq_false_iff.mpr h1
        have hnco : gemNonChestOverride (some gv) = false := by
          simp only [gemNonChestOverride]
          rw [h1f, Bool.false_and]
        rw [if_neg h1, hnco, if_neg (by decide),
          hskip _ _ (by rw [dentalStage_modality]; decide)]
        exact ⟨rfl, rfl⟩

/-- Closed witness for the hypotheses of
`c10_forced_vector_after_override`. -/
theorem c10_forced_vector_after_override_witness :
    dentalRefined true none = true ∧ gemChestOverride none = false ∧
    (cnnFromStats 128 0 0 0 0 2 2 2 true none none).probs =
      (if gemNonChestOverride none then (⟨9 / 10, 1 / 25, 3 / 100, 3 / 100⟩ : V4)
       else ⟨22 / 25, 1 / 25, 1 / 25, 1 / 25⟩) :=
  ⟨rfl, rfl, (c10_forced_vector_after_override 128 0 0 0 0 2 2 2 true none none rfl rfl).1⟩

/-! ## C8 — findings are non-empty, merged hint-first, de-duplicated -/

/-- C8 (amended): every returned findings list is non-empty and starts
with the de-duplicated external preliminary findings.  For the planar
classifier the merged list additionally has no duplicates at all (the
merge loop also de-duplicates heuristic findings against the externals),
and when no threshold rule triggers the heuristic generator emits
exactly the single <No strong abnormalities detected> phrase.  The MRI
and CT snapshot analyzers return a non-empty list whose prefix is the
de-duplicated (hence duplicate-free) external findings followed by some
tail of heuristic cues - but that tail is appended without
de-duplication against the externals, so the whole list can repeat a
phrase (see the duplicate counterexample). -/
theorem c8_findings_nonempty_ordered (b c s e o : ℚ) (modality : String)
    (gbr : Option String) (gf : List String) (g : Img) (gf2 : List String)
    (gct : Img) (cct : ℚ) (gc : Option GemHint) :
    (mergeF gf (makeFindings b c s e o modality gbr) ≠ [] ∧
      (mergeF gf (makeFindings b c s e o modality gbr)).Nodup ∧
      (∃ tail, mergeF gf (makeFindings b c s e o modality gbr) =
          gf.foldl addUniq [] ++ tail ∧
        ∀ x ∈ tail, x ∈ makeFindings b c s e o modality gbr) ∧
      (∀ x, x ∈ gf.foldl addUniq [] ↔ x ∈ gf)) ∧
    (¬b < 70 → ¬b > 180 → ¬s < 15 → ¬o > 3 / 10 → ¬(e > 55 ∧ s > 40) →
      makeFindings b c s e o modality gbr = ["No strong abnormalities detected"]) ∧
    (mriFindings g gf2 ≠ [] ∧ (gf2.foldl addUniq []).Nodup ∧
      ∃ tl, mriFindings g gf2 = gf2.foldl addUniq [] ++ tl) ∧
    ((ctFromGrid gct cct gc).finds ≠ [] ∧
      ((gemFinds gc).foldl addUniq []).Nodup ∧
      ∃ tl2, (ctFromGrid gct cct gc).finds = (gemFinds gc).foldl addUniq [] ++ tl2) := by
  refine ⟨⟨mergeF_ne_nil (makeFindings_ne_nil b c s e o modality gbr),
    mergeF_nodup _ _, mergeF_decomp _ _, ?_⟩, ?_,
    ⟨?_, nodup_foldl_addUniq gf2 List.nodup_nil, ?_⟩,
    ?_, nodup_foldl_addUniq (gemFinds gc) List.nodup_nil, ?_⟩
  · intro x
    constructor
    · intro hx
      rcases mem_foldl_addUniq hx with hx' | hx'
      · cases hx'
      · exact hx'
    · exact mem_foldl_addUniq_of_mem _
  · intro h1 h2 h3 h4 h6
    unfold makeFindings
    dsimp only
    rw [if_neg h1, if_neg h2, if_neg h3, if_neg h4, if_neg h6]
    have ho : ¬8 / 25 < o := fun hlt => h4 (by linarith)
    simp [ho]
  · unfold mriFindings
    exact ite_ne_nil _ _
  · unfold mriFindings
    dsimp only
    simp only [List.append_assoc]
    exact exists_tail_of_ite _ _ _
  · unfold ctFromGrid
    dsimp only
    exact ite_ne_nil _ _
  · unfold ctFromGrid
    dsimp only
    simp only [List.append_assoc]
    exact exists_tail_of_ite _ _ _

/-- Closed witness for the inner hypotheses of
`c8_findings_nonempty_ordered`. -/
theorem c8_findings_nonempty_ordered_witness :
    (¬(100 : ℚ) < 70 ∧ ¬(100 : ℚ) > 180 ∧ ¬(20 : ℚ) < 15 ∧ ¬(0 : ℚ) > 3 / 10 ∧
      ¬((0 : ℚ) > 55 ∧ (20 : ℚ) > 40)) ∧
    makeFindings 100 0 20 0 0 ("chest-xray") none =
      ["No strong abnormalities detected"] ∧
    mergeF [] (makeFindings 100 0 20 0 0 ("chest-xray") none) ≠ [] := by
  have h := c8_findings_nonempty_ordered 100 0 20 0 0 ("chest-xray") none []
    (constImg 15 15 0) [] (constImg 15 15 0) 0 none
  refine ⟨⟨by norm_num, by norm_num, by norm_num, by norm_num, ?_⟩, ?_, h.1.1⟩
  · rintro ⟨h1, _⟩
    norm_num at h1
  · exact h.2.1 (by norm_num) (by norm_num) (by norm_num) (by norm_num)
      (by rintro ⟨h1, _⟩; norm_num at h1)

/-! ## Concrete counterexample images -/

/-- A 10×17 image (aspect ratio 1.7) of horizontal stripes: rows of
value 180 at heights 3–4 and rows of value 120 at heights 7–8 on a
background of 100.  It is a fixed point of the 3×3 median filter and of
the equalization (the non-final histogram mass is below 255, so the PIL
lookup table is the identity). -/
def imgC4 : Img :=
  ⟨10, 17, fun y _x => [100, 100, 100, 180, 180, 100, 100, 120, 120, 100].getD y 0⟩

set_option maxRecDepth 100000 in
/-- C4 counterexample: on `imgC4` the gate of the source fires (aspect 1.7,
bottom-third/top-third edge ratio far above 1.35) while the claimed
two-band-split rule does not (bottom-half/top-half edge ratio = 1.2,
brightness ratios below 1.12). -/
theorem c4_two_band_split_counterexample :
    dentalGate imgC4 = true ∧ dentalGateClaim imgC4 = false := by
  constructor <;> with_unfolding_all decide

/-- A 16×15 MRI snapshot: all pixels 0 except a single bright pixel at
row 0, column 10. -/
def imgC5 : Img :=
  ⟨16, 15, fun y x => if y = 0 ∧ x = 10 then 1 else 0⟩

set_option maxRecDepth 100000 in
/-- C5 counterexample: on `imgC5` the returned MRI confidence (rounded
to two decimals) differs from the exact value
`min(0.95, 0.60 + 0.28·lesion_score + 0.10·min(lateral_diff, 0.2))`
the claim asserts it equals. -/
theorem c5_confidence_rounding_counterexample :
    (mriFromGrid imgC5 none).confidence ≠ mriConfRaw imgC5 := by
  with_unfolding_all decide

/-- A hint whose single preliminary finding is the exact string the MRI
brightness heuristic also emits on a dark slice. -/
def dupHint : GemHint :=
  ⟨none, 4 / 5, none, [("Underexposed slice (dark)")], false⟩

set_option maxRecDepth 100000 in
/-- C8 counterexample: on an all-black 15×15 snapshot with `dupHint`,
the MRI heuristic appends <Underexposed slice (dark)> again without
checking the externals, so the returned findings list contains that
phrase twice and is not duplicate-free. -/
theorem c8_duplicate_counterexample :
    (mriFromGrid (constImg 15 15 0) (some dupHint)).finds.count
        ("Underexposed slice (dark)") = 2 ∧
      ¬(mriFromGrid (constImg 15 15 0) (some dupHint)).finds.Nodup := by
  constructor <;> with_unfolding_all decide

end MedImg
